import Mathlib

/-!
# Verification of the json2vega spec-assembly pipeline

Shallow embedding of `src/scripts/json2vega.py`: the pipeline that loads
benchmark-result JSON records, filters them by an equality-conjunction
predicate set, projects them onto chart axes, infers axis types, merges the
result into a chart-type template, and pipes the assembled spec through an
external renderer process.

Modelling conventions:
* JSON scalar values are `Value` (string, float, int, bool).  Numbers are
  modelled as exact rationals; every concrete number appearing in the claims
  (`12.5`, `13.5`, halves, …) is exactly representable in IEEE float64, where
  `numpy.rint` is exact round-half-to-even, so the rational model agrees with
  the code on all claim-relevant inputs.
* A `Record` is an association list from field name to scalar, as produced by
  `json.load` of one input file.
* `DataFrame` models the pandas frame built by `pandas.DataFrame(records)`:
  the column set is the union of the record key sets, a record lacking a
  column holds the missing value `none` (pandas `NaN`), and each column's
  dtype is fixed at construction time from all records (pandas semantics:
  row filtering and `set_index`/`reset_index` do not change a column dtype).
* Python `==` (as used by `df[key] == value`) coerces across numeric types
  (`True == 1`, `1 == 1.0`); `pyEq` reproduces this.  `NaN == v` is false.
* A raised Python exception is `Except.error`; `Err` names the exception
  kinds (`KeyError` from a missing column, the `IOError` raised by
  `read_config` on a missing `<charttype>_config.json` file — the spec's
  `ConfigNotFoundError` —, `TypeError` from `numpy.rint` on a non-numeric
  column).
-/

set_option linter.unusedVariables false

/-- A JSON scalar stored in a record field.  `json.load` distinguishes
Python `str`, `float`, `int` and `bool`; pandas keeps that distinction when
choosing a column dtype, so the embedding does too. -/
inductive Value where
  | vstr (s : String)
  | vfloat (q : ℚ)
  | vint (n : ℤ)
  | vbool (b : Bool)
deriving DecidableEq, Repr

/-- One parsed input document: a mapping from field name to scalar value
(the dict produced by `json.load` for one input file). -/
abbrev Record : Type := List (String × Value)

/-- First-match association-list lookup, used for record fields, config
directories and JSON objects alike (Python dict indexing). -/
def alookup {β : Type} : List (String × β) → String → Option β
  | [], _ => none
  | (k', v) :: rest, k => if k' = k then some v else alookup rest k

/-- The keys of one record. -/
def keysOf (r : Record) : List String := r.map Prod.fst

/-- Concatenated keys of a list of records. -/
def allKeys : List Record → List String
  | [] => []
  | r :: rest => keysOf r ++ allKeys rest

/-- Column set of `pandas.DataFrame(records)`: the union of the record key
sets (first-occurrence order; order is never observed by the pipeline). -/
def colsOf (rs : List Record) : List String := (allKeys rs).dedup

/-- Numeric view used by Python `==`: `True`/`False` compare as `1`/`0`,
ints compare equal to equal-valued floats. -/
def toQ : Value → Option ℚ
  | .vfloat q => some q
  | .vint n => some (n : ℚ)
  | .vbool b => some (if b then 1 else 0)
  | .vstr _ => none

/-- Python/numpy `==` on scalars, as evaluated by `df[key] == value`. -/
def pyEq (a b : Value) : Bool :=
  match a, b with
  | .vstr s, .vstr t => s == t
  | a, b =>
    match toQ a, toQ b with
    | some x, some y => x == y
    | _, _ => false

/-- Whether the cell (a field value, or `none` for pandas `NaN` when the
record lacks the column) matches a predicate value.  `NaN == v` is false, so
a record lacking the field never matches. -/
def cellMatches (c : Option Value) (v : Value) : Bool :=
  match c with
  | some w => pyEq w v
  | none => false

/-- Column dtype, per numpy/pandas type inference at
`pandas.DataFrame(records)` construction. -/
inductive Dtype where
  | float64
  | int64
  | boolDt
  | object
deriving DecidableEq, Repr

/-- Is the value an int or a float? -/
def Value.isNum : Value → Bool
  | .vfloat _ => true
  | .vint _ => true
  | _ => false

/-- Is the value a float? -/
def Value.isFloat : Value → Bool
  | .vfloat _ => true
  | _ => false

/-- Is the value a string? -/
def Value.isStr : Value → Bool
  | .vstr _ => true
  | _ => false

/-- Is the value a bool? -/
def Value.isBool : Value → Bool
  | .vbool _ => true
  | _ => false

/-- The dtype pandas assigns to a column given its cells (`none` = missing
= `NaN`): all-numeric columns are `float64` when any cell is a float or
missing and `int64` when all are ints; an all-bool column with no missing
cell is `bool`; anything else (strings, mixed types) is `object`. -/
def colDtype (cells : List (Option Value)) : Dtype :=
  let present := cells.filterMap id
  let hasNaN := cells.any (fun c => c.isNone)
  if present.all Value.isNum then
    if hasNaN || present.any Value.isFloat then .float64 else .int64
  else if !hasNaN && present.all Value.isBool then .boolDt
  else .object

/-- The pandas DataFrame built from the loaded records: column set and
per-column dtypes are fixed at construction; `rows` keeps the records in
input order. -/
structure DataFrame where
  cols : List String
  dtypes : List (String × Dtype)
  rows : List Record

/-- `pandas.DataFrame(self.__input_jsons)` (json2vega.py line 109). -/
def mkDF (records : List Record) : DataFrame :=
  let cs := colsOf records
  { cols := cs
    dtypes := cs.map (fun c => (c, colDtype (records.map (fun r => alookup r c))))
    rows := records }

/-- Dtype of one column (`df[c].dtype`). -/
def dtypeOf (df : DataFrame) (c : String) : Dtype :=
  (alookup df.dtypes c).getD .object

/-- Exception kinds raised by the pipeline (spec §7 taxonomy). -/
inductive Err where
  | keyError (k : String)
  | configNotFound (name : String)
  | typeError
deriving DecidableEq, Repr

/-- One step of the conditions loop
(`df_restricted = df_restricted.loc[df_restricted[key] == value]`,
json2vega.py lines 176–177): `df_restricted[key]` raises `KeyError` when the
column does not exist; otherwise rows whose cell equals the value survive,
in order, and columns and dtypes are unchanged. -/
def filterStep (df : DataFrame) (k : String) (v : Value) : Except Err DataFrame :=
  if k ∈ df.cols then
    .ok { df with rows := df.rows.filter (fun r => cellMatches (alookup r k) v) }
  else .error (.keyError k)

/-- The whole `for key, value in self.conditions_dict.iteritems()` loop
(json2vega.py lines 176–177). -/
def applyConds (df : DataFrame) : List (String × Value) → Except Err DataFrame
  | [] => .ok df
  | (k, v) :: rest =>
    match filterStep df k v with
    | .ok df' => applyConds df' rest
    | .error e => .error e

/-- A record matches every entry of the predicate set. -/
def matchesAll (conds : List (String × Value)) (r : Record) : Bool :=
  conds.all (fun kv => cellMatches (alookup r kv.1) kv.2)

theorem alookup_isSome_of_mem_keys : ∀ {r : Record} {k : String},
    k ∈ keysOf r → (alookup r k).isSome
  | [], k, h => by simp [keysOf] at h
  | (a, b) :: rest, k, h => by
    by_cases hk : a = k
    · simp [alookup, hk]
    · simp only [alookup, if_neg hk]
      apply alookup_isSome_of_mem_keys
      simp only [keysOf, List.map_cons, List.mem_cons] at h
      rcases h with h | h
      · exact absurd h.symm hk
      · simpa [keysOf] using h

theorem mem_allKeys {rs : List Record} {k : String} :
    k ∈ allKeys rs ↔ ∃ r ∈ rs, k ∈ keysOf r := by
  induction rs with
  | nil => simp [allKeys]
  | cons r rest ih => simp [allKeys, ih]

theorem mem_colsOf {rs : List Record} {k : String} :
    k ∈ colsOf rs ↔ ∃ r ∈ rs, k ∈ keysOf r := by
  rw [colsOf, List.mem_dedup]; exact mem_allKeys

/-- The conditions loop filters the rows by the conjunction of all
predicates and leaves columns and dtypes untouched. -/
theorem applyConds_ok (conds : List (String × Value)) :
    ∀ df df', applyConds df conds = .ok df' →
      df'.rows = df.rows.filter (matchesAll conds) ∧
      df'.cols = df.cols ∧ df'.dtypes = df.dtypes := by
  induction conds with
  | nil =>
    intro df df' h
    simp only [applyConds] at h
    cases h
    refine ⟨?_, rfl, rfl⟩
    have he : matchesAll [] = fun (_ : Record) => true := by
      funext r; simp [matchesAll]
    rw [he, List.filter_true]
  | cons kv rest ih =>
    intro df df' h
    cases kv with
    | mk k v =>
      simp only [applyConds, filterStep] at h
      by_cases hk : k ∈ df.cols
      · rw [if_pos hk] at h
        obtain ⟨h1, h2, h3⟩ := ih _ _ h
        refine ⟨?_, h2, h3⟩
        rw [h1]
        simp only [List.filter_filter]
        apply List.filter_congr
        intro a _
        simp [matchesAll, Bool.and_comm]
      · rw [if_neg hk] at h
        exact absurd h (by simp)

theorem applyConds_exists_of_keys {df : DataFrame} {conds : List (String × Value)}
    (h : ∀ kv ∈ conds, kv.1 ∈ df.cols) :
    ∃ df', applyConds df conds = .ok df' := by
  induction conds generalizing df with
  | nil => exact ⟨df, rfl⟩
  | cons kv rest ih =>
    cases kv with
    | mk k v =>
      have hk : k ∈ df.cols := h (k, v) (by simp)
      simp only [applyConds, filterStep, if_pos hk]
      exact ih (fun kv hkv => h kv (by simp [hkv]))

/-- Nested JSON, as loaded from a `<charttype>_config.json` chart template
and as produced for the data values slot. -/
inductive Json where
  | null
  | str (s : String)
  | num (q : ℚ)
  | bool (b : Bool)
  | arr (xs : List Json)
  | obj (fields : List (String × Json))

/-- Replace the binding of `k` (first occurrence) or append it: Python
`d[k] = v` on a dict. -/
def aset {β : Type} : List (String × β) → String → β → List (String × β)
  | [], k, v => [(k, v)]
  | (k', v') :: rest, k, v =>
    if k' = k then (k, v) :: rest else (k', v') :: aset rest k v

/-- Read a nested JSON value at a key path (`j[k1][k2]…`); `none` when a key
is missing or a non-object is indexed. -/
def getPath : Json → List String → Option Json
  | j, [] => some j
  | .obj fs, k :: ks =>
    match alookup fs k with
    | some sub => getPath sub ks
    | none => none
  | _, _ :: _ => none

/-- Python item assignment at a key path, `j[k1][k2]…[kn] = v`: every key on
the way must exist (`KeyError` otherwise) and index an object (`TypeError`
otherwise); the final key is created or overwritten. -/
def setPath : Json → List String → Json → Except Err Json
  | _, [], v => .ok v
  | .obj fs, k :: ks, v =>
    match ks with
    | [] => .ok (.obj (aset fs k v))
    | _ :: _ =>
      match alookup fs k with
      | some sub =>
        match setPath sub ks v with
        | .ok sub' => .ok (.obj (aset fs k sub'))
        | .error e => .error e
      | none => .error (.keyError k)
  | _, _ :: _, _ => .error .typeError

/-- A straight-line sequence of item assignments, applied in order. -/
def setPaths : Json → List (List String × Json) → Except Err Json
  | t, [] => .ok t
  | t, (p, v) :: rest =>
    match setPath t p v with
    | .ok t' => setPaths t' rest
    | .error e => .error e

/-- `isInit q p` is true iff the path `q` is an initial segment of the path
`p` (so the assignment at `q` can change or drop what sits at `p`). -/
def isInit : List String → List String → Bool
  | [], _ => true
  | _ :: _, [] => false
  | a :: as, b :: bs => a == b && isInit as bs

theorem alookup_aset_self {β : Type} (fs : List (String × β)) (k : String) (v : β) :
    alookup (aset fs k v) k = some v := by
  induction fs with
  | nil => simp [aset, alookup]
  | cons kv rest ih =>
    cases kv with
    | mk k' v' =>
      by_cases hk : k' = k
      · simp [aset, alookup, hk]
      · simp [aset, alookup, hk, ih]

theorem alookup_aset_ne {β : Type} (fs : List (String × β)) (k k' : String) (v : β)
    (h : k ≠ k') : alookup (aset fs k v) k' = alookup fs k' := by
  induction fs with
  | nil => simp [aset, alookup, h]
  | cons kv rest ih =>
    cases kv with
    | mk a b =>
      by_cases ha : a = k
      · simp [aset, alookup, ha, h]
      · simp only [aset, if_neg ha, alookup]
        by_cases ha' : a = k'
        · simp [ha']
        · simp [ha', ih]

/-- Setting at path `q` leaves the value at any path `p` unchanged when
neither path is an initial segment of the other. -/
theorem getPath_setPath_of_disj : ∀ (q : List String) (j j' v : Json) (p : List String),
    setPath j q v = .ok j' → isInit q p = false → isInit p q = false →
    getPath j' p = getPath j p
  | [], j, j', v, p, h, hqp, hpq => by simp [isInit] at hqp
  | k :: ks, j, j', v, p, h, hqp, hpq => by
    cases j with
    | obj fs =>
      cases ks with
      | nil =>
        simp only [setPath] at h
        cases h
        cases p with
        | nil => simp [isInit] at hpq
        | cons k' ps =>
          have hk : ¬ (k = k') := by
            intro he
            simp [isInit, he] at hqp
          simp only [getPath, alookup_aset_ne fs k k' v hk]
      | cons k2 ks' =>
        simp only [setPath] at h
        split at h
        next sub hl =>
          split at h
          next sub' hs =>
            cases h
            cases p with
            | nil => simp [isInit] at hpq
            | cons k' ps =>
              by_cases hk : k = k'
              · subst hk
                have hqp' : isInit (k2 :: ks') ps = false := by
                  simpa [isInit] using hqp
                have hpq' : isInit ps (k2 :: ks') = false := by
                  simpa [isInit] using hpq
                simp only [getPath, alookup_aset_self, hl]
                exact getPath_setPath_of_disj (k2 :: ks') sub sub' v ps hs hqp' hpq'
              · simp only [getPath, alookup_aset_ne fs k k' sub' hk]
          next e hs => exact absurd h (by simp)
        next hl => exact absurd h (by simp)
    | null => exact absurd h (by simp [setPath])
    | str s => exact absurd h (by simp [setPath])
    | num q' => exact absurd h (by simp [setPath])
    | bool b => exact absurd h (by simp [setPath])
    | arr xs => exact absurd h (by simp [setPath])

/-- Setting at path `q` keeps every already-present path `p` present, as
long as `q` is not an initial segment of `p`. -/
theorem getPath_setPath_isSome : ∀ (q : List String) (j j' v : Json) (p : List String),
    setPath j q v = .ok j' → isInit q p = false →
    (getPath j p).isSome → (getPath j' p).isSome
  | [], j, j', v, p, h, hqp, hp => by simp [isInit] at hqp
  | k :: ks, j, j', v, p, h, hqp, hp => by
    cases j with
    | obj fs =>
      cases ks with
      | nil =>
        simp only [setPath] at h
        cases h
        cases p with
        | nil => simp [getPath]
        | cons k' ps =>
          have hk : ¬ (k = k') := by
            intro he
            simp [isInit, he] at hqp
          simpa only [getPath, alookup_aset_ne fs k k' v hk] using hp
      | cons k2 ks' =>
        simp only [setPath] at h
        split at h
        next sub hl =>
          split at h
          next sub' hs =>
            cases h
            cases p with
            | nil => simp [getPath]
            | cons k' ps =>
              by_cases hk : k = k'
              · subst hk
                have hqp' : isInit (k2 :: ks') ps = false := by
                  simpa [isInit] using hqp
                rw [getPath, alookup_aset_self]
                rw [getPath, hl] at hp
                exact getPath_setPath_isSome (k2 :: ks') sub sub' v ps hs hqp' hp
              · simpa only [getPath, alookup_aset_ne fs k k' sub' hk] using hp
          next e hs => exact absurd h (by simp)
        next hl => exact absurd h (by simp)
    | null => exact absurd h (by simp [setPath])
    | str s => exact absurd h (by simp [setPath])
    | num q' => exact absurd h (by simp [setPath])
    | bool b => exact absurd h (by simp [setPath])
    | arr xs => exact absurd h (by simp [setPath])

/-- Reading back the path just assigned yields the assigned value. -/
theorem getPath_setPath_self : ∀ (p : List String) (j j' v : Json),
    setPath j p v = .ok j' → getPath j' p = some v
  | [], j, j', v, h => by
    simp only [setPath] at h
    cases h
    simp [getPath]
  | k :: ks, j, j', v, h => by
    cases j with
    | obj fs =>
      cases ks with
      | nil =>
        simp only [setPath] at h
        cases h
        simp [getPath, alookup_aset_self]
      | cons k2 ks' =>
        simp only [setPath] at h
        split at h
        next sub hl =>
          split at h
          next sub' hs =>
            cases h
            rw [getPath, alookup_aset_self]
            exact getPath_setPath_self (k2 :: ks') sub sub' v hs
          next e hs => exact absurd h (by simp)
        next hl => exact absurd h (by simp)
    | null => exact absurd h (by simp [setPath])
    | str s => exact absurd h (by simp [setPath])
    | num q' => exact absurd h (by simp [setPath])
    | bool b => exact absurd h (by simp [setPath])
    | arr xs => exact absurd h (by simp [setPath])

theorem setPaths_frame : ∀ (as : List (List String × Json)) (t t' : Json) (p : List String),
    setPaths t as = .ok t' →
    (∀ qv ∈ as, isInit qv.1 p = false ∧ isInit p qv.1 = false) →
    getPath t' p = getPath t p
  | [], t, t', p, h, hd => by
    simp only [setPaths] at h
    cases h
    rfl
  | (q, v) :: rest, t, t', p, h, hd => by
    simp only [setPaths] at h
    split at h
    next t1 h1 =>
      have h2 := setPaths_frame rest t1 t' p h (fun qv hqv => hd qv (by simp [hqv]))
      have h3 := getPath_setPath_of_disj q t t1 v p h1
        (hd (q, v) (by simp)).1 (hd (q, v) (by simp)).2
      rw [h2, h3]
    next e h1 => exact absurd h (by simp)

theorem setPaths_isSome : ∀ (as : List (List String × Json)) (t t' : Json) (p : List String),
    setPaths t as = .ok t' →
    (∀ qv ∈ as, isInit qv.1 p = false) →
    (getPath t p).isSome → (getPath t' p).isSome
  | [], t, t', p, h, hd, hp => by
    simp only [setPaths] at h
    cases h
    exact hp
  | (q, v) :: rest, t, t', p, h, hd, hp => by
    simp only [setPaths] at h
    split at h
    next t1 h1 =>
      exact setPaths_isSome rest t1 t' p h (fun qv hqv => hd qv (by simp [hqv]))
        (getPath_setPath_isSome q t t1 v p h1 (hd (q, v) (by simp)) hp)
    next e h1 => exact absurd h (by simp)

theorem setPaths_append : ∀ (as1 as2 : List (List String × Json)) (t : Json),
    setPaths t (as1 ++ as2) =
      match setPaths t as1 with
      | .ok t1 => setPaths t1 as2
      | .error e => .error e
  | [], as2, t => by simp [setPaths]
  | (q, v) :: rest, as2, t => by
    simp only [List.cons_append, setPaths]
    cases setPath t q v with
    | ok t1 => exact setPaths_append rest as2 t1
    | error e => rfl

/-- A projected output row: field name to cell (`none` = `NaN`). -/
abbrev PRow : Type := List (String × Option Value)

/-- The bar/scatter axis projection
(`pandas.DataFrame(df.set_index(x)[y]).reset_index()`, json2vega.py
lines 180–183).  `set_index(x)` raises `KeyError` when `x` is not a column
and consumes the `x` column, so the subsequent `[y]` raises `KeyError` when
`y` is not one of the remaining columns.  pandas keeps duplicate index
labels, so every filtered row yields exactly one output row, in order. -/
def projectXY (df : DataFrame) (x y : String) : Except Err (List PRow) :=
  if x ∈ df.cols then
    if y ∈ df.cols.erase x then
      .ok (df.rows.map (fun r => [(x, alookup r x), (y, alookup r y)]))
    else .error (.keyError y)
  else .error (.keyError x)

/-- JSON image of one scalar, as in `to_dict(orient='records')` then
`json.dumps`. -/
def valueJson : Value → Json
  | .vstr s => .str s
  | .vfloat q => .num q
  | .vint n => .num (n : ℚ)
  | .vbool b => .bool b

/-- JSON image of one cell (`NaN` serialises as a null-like leaf). -/
def cellJson : Option Value → Json
  | none => .null
  | some v => valueJson v

/-- JSON image of one projected row. -/
def rowJson (row : PRow) : Json :=
  .obj (row.map (fun kv => (kv.1, cellJson kv.2)))

/-- `json.load(open(config_dir + "/" + graph_type.lower() + "_config.json"))`
(json2vega.py lines 97–100): the config directory is a finite map from file
name to parsed template; a missing file raises (the spec's
`ConfigNotFoundError`).  Every `graph_type` the program sets ("bar",
"barbase", "scatter", "heatmap", "base") is already lowercase, so `lower()`
is the identity on the inputs of interest and is not modelled. -/
def read_config (configs : List (String × Json)) (graphType : String) : Except Err Json :=
  match alookup configs (graphType ++ "_config.json") with
  | some t => .ok t
  | none => .error (.configNotFound (graphType ++ "_config.json"))

/-- The straight-line slot assignments of the bar/scatter Template Merger,
in source order (json2vega.py lines 187–199):
`bar["data"] = {"values": …}`; `bar["encoding"]["y"]["field"] = …`;
`bar["encoding"]["y"]["axis"] = {"title": …}`; the
`for key in self.axes_vars` loop writing `…[key]["type"]` for both axes
(the two writes touch distinct paths, so the dict iteration order of
`{'x','y'}` is immaterial); `bar["encoding"]["x"]["field"] = …`;
`bar["encoding"]["x"]["axis"] = {"title": …}`. -/
def barAssignments (x y xlabel ylabel xt yt : String) (dv : Json) :
    List (List String × Json) :=
  [ (["data"], dv),
    (["encoding", "y", "field"], .str y),
    (["encoding", "y", "axis"], .obj [("title", .str ylabel)]),
    (["encoding", "x", "type"], .str xt),
    (["encoding", "y", "type"], .str yt),
    (["encoding", "x", "field"], .str x),
    (["encoding", "x", "axis"], .obj [("title", .str xlabel)]) ]

/-- The key paths the bar/scatter Template Merger writes to. -/
def slotPaths : List (List String) :=
  [ ["data"],
    ["encoding", "y", "field"],
    ["encoding", "y", "axis"],
    ["encoding", "x", "type"],
    ["encoding", "y", "type"],
    ["encoding", "x", "field"],
    ["encoding", "x", "axis"] ]

/-- The bar/scatter Template Merger: overlay the data values, axis field
names, axis titles and inferred axis types onto the loaded template
(json2vega.py lines 187–199). -/
def mergeBar (tmpl : Json) (x y xlabel ylabel xt yt : String) (dv : Json) :
    Except Err Json :=
  setPaths tmpl (barAssignments x y xlabel ylabel xt yt dv)

/-- The Type Inferencer (json2vega.py lines 193–197):
`"quantitative"` iff the column dtype is `float64`. -/
def inferType (d : Dtype) : String :=
  if d = .float64 then "quantitative" else "ordinal"

/-- `VegaGraphBarBase.parse_jsons` (json2vega.py lines 168–201), for the
table loaded into `__input_jsons`: filter by the conditions dict, project
onto the two axis fields, load the `<graph_type>_config.json` template and
merge.  The axis dtype is read off the projected frame `df_restricted`,
whose column dtypes pandas carries over unchanged from construction. -/
def parse_jsons_barbase (configs : List (String × Json)) (graphType : String)
    (records : List Record) (conds : List (String × Value))
    (x y xlabel ylabel : String) : Except Err Json :=
  match applyConds (mkDF records) conds with
  | .error e => .error e
  | .ok df1 =>
    match projectXY df1 x y with
    | .error e => .error e
    | .ok rows =>
      match read_config configs graphType with
      | .error e => .error e
      | .ok tmpl =>
        mergeBar tmpl x y xlabel ylabel
          (inferType (dtypeOf df1 x)) (inferType (dtypeOf df1 y))
          (.obj [("values", .arr (rows.map rowJson))])

/-- `VegaGraphBase.read_json` acting on the class-level `__input_jsons`
list (json2vega.py lines 56–57 and 79–81): `self.__input_jsons += [doc]`
mutates the list object stored on the *class*, so the records of every
invocation accumulate into the one shared list.  `st` is the shared list
before the call, `files` the documents this invocation's directory scan
matches; the result is the shared list afterwards — which is also what this
invocation's `parse_jsons` will read. -/
def readJson (st : List Record) (files : List Record) : List Record :=
  st ++ files

/-- numpy.rint on an exact value: round to nearest, ties to even
(`Rat.floor` is the floor of `q`, kept in its executable form). -/
def rintZ (q : ℚ) : ℤ :=
  if q - q.floor < 1 / 2 then q.floor
  else if 1 / 2 < q - q.floor then q.floor + 1
  else if q.floor % 2 = 0 then q.floor else q.floor + 1

/-- numpy.rint as a float-to-float map (rint returns float64). -/
def rintQ (q : ℚ) : ℚ := (rintZ q : ℚ)

/-- `numpy.rint` applied to one cell of the `m_teps` column: floats round,
ints and bools are cast to float64 first, `NaN` stays `NaN`, and a string
cell makes the whole ufunc raise `TypeError`. -/
def rintCell : Option Value → Except Err (Option Value)
  | none => .ok none
  | some (.vfloat q) => .ok (some (.vfloat (rintQ q)))
  | some (.vint n) => .ok (some (.vfloat (n : ℚ)))
  | some (.vbool b) => .ok (some (.vfloat (if b then 1 else 0)))
  | some (.vstr _) => .error .typeError

/-- Row-by-row image of
`df[['dataset','m_teps','alpha','beta']].assign(m_teps_rounded=numpy.rint(df['m_teps']))`
followed by `to_dict(orient='records')` (json2vega.py lines 320–322):
the four retained columns plus the derived rounded column, appended last. -/
def heatRows : List Record → Except Err (List PRow)
  | [] => .ok []
  | r :: rest =>
    match rintCell (alookup r "m_teps") with
    | .error e => .error e
    | .ok rv =>
      match heatRows rest with
      | .error e => .error e
      | .ok hs =>
        .ok ([("dataset", alookup r "dataset"), ("m_teps", alookup r "m_teps"),
              ("alpha", alookup r "alpha"), ("beta", alookup r "beta"),
              ("m_teps_rounded", rv)] :: hs)

/-- The heatmap Axis Projector (json2vega.py lines 318–322):
`df_restricted[['dataset','m_teps','alpha','beta']]` raises `KeyError`
unless all four fixed columns exist; then the rounded column is derived. -/
def heatmapProject (df : DataFrame) : Except Err (List PRow) :=
  if "dataset" ∈ df.cols ∧ "m_teps" ∈ df.cols ∧ "alpha" ∈ df.cols ∧ "beta" ∈ df.cols then
    heatRows df.rows
  else .error (.keyError "dataset, m_teps, alpha, beta")

/-- `VegaGraphHeatmap.parse_jsons` (json2vega.py lines 308–328): filter by
the conditions dict, project the four fixed columns plus the rounded
column, load `heatmap_config.json` and fill only the data slot.  The
constructor stores `axes_vars` but `parse_jsons` never reads it. -/
def parse_jsons_heatmap (configs : List (String × Json)) (records : List Record)
    (conds : List (String × Value)) (axes_vars : List (String × String))
    (xlabel ylabel : String) : Except Err Json :=
  match applyConds (mkDF records) conds with
  | .error e => .error e
  | .ok df1 =>
    match heatmapProject df1 with
    | .error e => .error e
    | .ok rows =>
      match read_config configs "heatmap" with
      | .error e => .error e
      | .ok tmpl =>
        setPath tmpl ["data"] (.obj [("values", .arr (rows.map rowJson))])

/-- The external `vl2vg` renderer process: given its stdin, it yields an
exit code and its stdout bytes. -/
abbrev RenderProc : Type := String → ℤ × String

/-- `VegaGraphBase.pipe_vl2vg` (json2vega.py lines 112–121): serialize the
assembled spec (`dumps` stands for `json.dumps`), feed it to the process,
and return `p.communicate(...)[0]` — the stdout bytes.  The exit code is
never consulted. -/
def pipe_vl2vg (dumps : Json → String) (proc : RenderProc) (json_in : Json) : String :=
  (proc (dumps json_in)).2

/-- The arguments `run` hands to the external output writer
(`write_to_file`, json2vega.py line 93). -/
structure WriteCall where
  raw : String
  engine : String
  algo : String
  suffix : String
deriving DecidableEq, Repr

/-- `VegaGraphBase.run` for a bar/scatter graph (json2vega.py lines 83–93):
read the input files into the shared table, parse, pipe through the
renderer, and hand the bytes to the output writer.  Any raised exception
propagates, so no write call is produced on error. -/
def run_barbase (configs : List (String × Json)) (graphType : String)
    (st files : List Record) (conds : List (String × Value))
    (x y xlabel ylabel : String) (dumps : Json → String) (proc : RenderProc)
    (engine algo suffix : String) : Except Err WriteCall :=
  match parse_jsons_barbase configs graphType (readJson st files) conds x y xlabel ylabel with
  | .error e => .error e
  | .ok graph =>
    .ok { raw := pipe_vl2vg dumps proc graph
          engine := engine, algo := algo, suffix := suffix }

/-- Observer: the records sitting in the assembled spec's data slot. -/
def dataValuesOf (spec : Json) : List Json :=
  match getPath spec ["data"] with
  | some (.obj fs) =>
    match alookup fs "values" with
    | some (.arr xs) => xs
    | _ => []
  | _ => []

/-- Observer: a string-valued field of one data record. -/
def fieldStr (j : Json) (k : String) : String :=
  match j with
  | .obj fs =>
    match alookup fs k with
    | some (.str s) => s
    | _ => ""
  | _ => ""

/-! ## Concrete inputs used by witnesses and counterexamples -/

/-- The spec §8 end-to-end scenario's first record. -/
def rRoad : Record :=
  [("algorithm", .vstr "BFS"), ("undirected", .vbool true),
   ("mark_predecessors", .vbool true), ("dataset", .vstr "road"),
   ("m_teps", .vfloat (62 / 5))]

/-- The spec §8 end-to-end scenario's second record. -/
def rSoc : Record :=
  [("algorithm", .vstr "BFS"), ("undirected", .vbool false),
   ("mark_predecessors", .vbool true), ("dataset", .vstr "soc"),
   ("m_teps", .vfloat (31 / 10))]

/-- The spec §8 end-to-end scenario's Predicate Set. -/
def conds0 : List (String × Value) :=
  [("algorithm", .vstr "BFS"), ("undirected", .vbool true),
   ("mark_predecessors", .vbool true)]

/-- The frame `applyConds (mkDF [rRoad, rSoc]) conds0` evaluates to: only
the road record survives; columns and dtypes are those of construction. -/
def dfScenario : DataFrame :=
  { cols := ["algorithm", "undirected", "mark_predecessors", "dataset", "m_teps"]
    dtypes := [("algorithm", .object), ("undirected", .boolDt),
               ("mark_predecessors", .boolDt), ("dataset", .object),
               ("m_teps", .float64)]
    rows := [rRoad] }

/-! ## C2: the Filter Engine is an order-preserving equality-conjunction -/

/-- C2: for every Table `T` (as the frame `df` built over it) and Predicate
Set `P` for which the filter returns a result, every surviving record
matches every entry of `P` (Python `==` equality against the record's cell,
a missing field never matching), every record of `T` absent from the result
fails at least one entry, and the surviving records are a sublist of `T`'s
rows, i.e. keep their relative order. -/
theorem filter_conjunction_sound_complete_ordered
    (df df' : DataFrame) (conds : List (String × Value))
    (h : applyConds df conds = .ok df') :
    (∀ r ∈ df'.rows, ∀ kv ∈ conds, cellMatches (alookup r kv.1) kv.2 = true) ∧
    (∀ r ∈ df.rows, r ∉ df'.rows → ∃ kv ∈ conds, cellMatches (alookup r kv.1) kv.2 = false) ∧
    df'.rows.Sublist df.rows := by
  obtain ⟨h1, -, -⟩ := applyConds_ok conds df df' h
  refine ⟨?_, ?_, ?_⟩
  · intro r hr kv hkv
    rw [h1] at hr
    have hm := List.of_mem_filter hr
    simp only [matchesAll, List.all_eq_true] at hm
    exact hm kv hkv
  · intro r hr hnr
    by_contra hc
    push_neg at hc
    apply hnr
    rw [h1]
    refine List.mem_filter.mpr ⟨hr, ?_⟩
    simp only [matchesAll, List.all_eq_true]
    intro kv hkv
    have := hc kv hkv
    simpa using this
  · rw [h1]
    exact List.filter_sublist _

/-- Witness for C2 at the spec §8 scenario: filtering the two-record table
by the BFS/undirected/mark_predecessors predicate keeps exactly the road
record, in order. -/
theorem filter_conjunction_witness :
    (∀ r ∈ [rRoad], ∀ kv ∈ conds0, cellMatches (alookup r kv.1) kv.2 = true) ∧
    (∀ r ∈ [rRoad, rSoc], r ∉ [rRoad] → ∃ kv ∈ conds0, cellMatches (alookup r kv.1) kv.2 = false) ∧
    ([rRoad] : List Record).Sublist [rRoad, rSoc] :=
  filter_conjunction_sound_complete_ordered (mkDF [rRoad, rSoc]) dfScenario conds0 (by rfl)

/-! ## C7: a predicate key missing from a record -/

/-- C7 counterexample: the claim says a record lacking a predicate-named
field never makes the filter raise, but when *no* record carries the field
the column does not exist and `df_restricted[key]` raises `KeyError`:
table `[{"a": 1}]`, predicate `{"b": 1}`. -/
theorem filter_missing_column_raises_cex :
    applyConds (mkDF [[("a", Value.vint 1)]]) [("b", Value.vint 1)]
      = .error (.keyError "b") := by rfl

/-- C7 as amended: when every predicate key names an existing column (some
record of the table carries the field), the filter returns a result without
raising, and every record lacking one of the predicate fields fails the
match and is excluded from the result. -/
theorem filter_missing_field_excluded_when_column_exists
    (records : List Record) (conds : List (String × Value))
    (hcols : ∀ kv ∈ conds, kv.1 ∈ (mkDF records).cols) :
    ∃ df', applyConds (mkDF records) conds = .ok df' ∧
      ∀ r ∈ records, (∃ kv ∈ conds, alookup r kv.1 = none) → r ∉ df'.rows := by
  obtain ⟨df', hdf⟩ := applyConds_exists_of_keys hcols
  refine ⟨df', hdf, ?_⟩
  rintro r hr ⟨kv, hkv, hnone⟩ hmem
  obtain ⟨h1, -, -⟩ := applyConds_ok conds _ _ hdf
  rw [h1] at hmem
  have hm := List.of_mem_filter hmem
  simp only [matchesAll, List.all_eq_true] at hm
  have := hm kv hkv
  rw [hnone] at this
  simp [cellMatches] at this

/-- Witness for C7 as amended: the column `b` exists (the first record has
it), the second record lacks `b`, the filter succeeds and excludes it. -/
theorem filter_missing_field_witness :
    ∃ df', applyConds (mkDF [[("a", Value.vint 1), ("b", Value.vint 2)], [("a", Value.vint 3)]])
        [("b", Value.vint 2)] = .ok df' ∧
      ∀ r ∈ [[("a", Value.vint 1), ("b", Value.vint 2)], [("a", Value.vint 3)]],
        (∃ kv ∈ [("b", Value.vint 2)], alookup r kv.1 = none) → r ∉ df'.rows :=
  filter_missing_field_excluded_when_column_exists
    [[("a", Value.vint 1), ("b", Value.vint 2)], [("a", Value.vint 3)]]
    [("b", Value.vint 2)] (by decide)

/-! ## C3: the class-level `__input_jsons` list is shared across invocations -/

/-- C3 (code bug): `__input_jsons` is a *class* attribute and
`self.__input_jsons += [...]` mutates that one list in place, so a second
invocation's table contains the records loaded by the first.  Evaluating
the loader at the failing input: the first invocation reads the road
record into the empty shared list; a second invocation (fresh graph
object, same class) reads the soc record; the table the second invocation
parses is both records, not just its own. -/
theorem read_json_shared_state_leak :
    readJson (readJson [] [[("dataset", Value.vstr "road")]])
        [[("dataset", Value.vstr "soc")]]
      = [[("dataset", Value.vstr "road")], [("dataset", Value.vstr "soc")]] ∧
    [[("dataset", Value.vstr "road")], [("dataset", Value.vstr "soc")]]
      ≠ [[("dataset", Value.vstr "soc")]] :=
  ⟨rfl, by decide⟩

/-- The executable `Rat.floor` agrees with the ambient `Int.floor`. -/
theorem ratFloor_eq (q : ℚ) : q.floor = ⌊q⌋ := by
  rw [Rat.floor_def, Rat.floor_def']

/-! ## C10: exact halves round to the even neighbor -/

/-- C10: `numpy.rint` (the heatmap's derived-column rounding) sends an
`m_teps` value exactly halfway between two integers to the even neighbor:
for every integer `k`, `rintZ (k + 1/2)` is one of `k`, `k + 1` and is
even; in particular `12.5` rounds to `12` and `13.5` to `14`, and the
heatmap row projection derives `m_teps_rounded = 12.0` from
`m_teps = 12.5`. -/
theorem rint_half_to_even :
    (∀ k : ℤ, (rintZ ((k : ℚ) + 1 / 2) = k ∨ rintZ ((k : ℚ) + 1 / 2) = k + 1) ∧
      Even (rintZ ((k : ℚ) + 1 / 2))) ∧
    rintQ (25 / 2) = 12 ∧ rintQ (27 / 2) = 14 ∧
    heatRows [[("dataset", .vstr "d"), ("m_teps", .vfloat (25 / 2)),
               ("alpha", .vint 1), ("beta", .vint 2)]]
      = .ok [[("dataset", some (.vstr "d")), ("m_teps", some (.vfloat (25 / 2))),
              ("alpha", some (.vint 1)), ("beta", some (.vint 2)),
              ("m_teps_rounded", some (.vfloat 12))]] := by
  have h25 : rintQ (25 / 2) = 12 := by
    have hf : (⌊(25 / 2 : ℚ)⌋ : ℤ) = 12 := by norm_num
    unfold rintQ rintZ
    rw [ratFloor_eq, hf]
    norm_num
  have h27 : rintQ (27 / 2) = 14 := by
    have hf : (⌊(27 / 2 : ℚ)⌋ : ℤ) = 13 := by norm_num
    unfold rintQ rintZ
    rw [ratFloor_eq, hf]
    norm_num
  refine ⟨?_, h25, h27, ?_⟩
  swap
  · calc heatRows [[("dataset", .vstr "d"), ("m_teps", .vfloat (25 / 2)),
               ("alpha", .vint 1), ("beta", .vint 2)]]
        = .ok [[("dataset", some (.vstr "d")), ("m_teps", some (.vfloat (25 / 2))),
                ("alpha", some (.vint 1)), ("beta", some (.vint 2)),
                ("m_teps_rounded", some (.vfloat (rintQ (25 / 2))))]] := by rfl
      _ = .ok [[("dataset", some (.vstr "d")), ("m_teps", some (.vfloat (25 / 2))),
                ("alpha", some (.vint 1)), ("beta", some (.vint 2)),
                ("m_teps_rounded", some (.vfloat 12))]] := by rw [h25]
  intro k
  have hf : ((k : ℚ) + 1 / 2).floor = k := by
    rw [ratFloor_eq, add_comm, Int.floor_add_int]
    norm_num
  have h12 : (k : ℚ) + 1 / 2 - (k : ℚ) = 1 / 2 := by ring
  unfold rintZ
  rw [hf, h12]
  rw [if_neg (lt_irrefl _), if_neg (lt_irrefl _)]
  by_cases he : k % 2 = 0
  · rw [if_pos he]
    exact ⟨Or.inl rfl, Int.even_iff.mpr he⟩
  · rw [if_neg he]
    exact ⟨Or.inr rfl, Int.even_add_one.mpr (fun hev => he (Int.even_iff.mp hev))⟩

/-! ## C8: a missing `<charttype>_config.json` aborts the run -/

/-- C8: for every chart type whose configuration resource
`<charttype>_config.json` is absent from the config directory, a run whose
earlier stages succeed fails with the missing-config error raised by
`read_config` (the spec's `ConfigNotFoundError`), and — the run aborting
before `write_to_file` — no write call is produced. -/
theorem run_missing_config_errors
    (configs : List (String × Json)) (graphType : String)
    (st files : List Record) (conds : List (String × Value))
    (x y xlabel ylabel : String) (dumps : Json → String) (proc : RenderProc)
    (engine algo suffix : String) (df1 : DataFrame) (rows : List PRow)
    (h1 : applyConds (mkDF (readJson st files)) conds = .ok df1)
    (h2 : projectXY df1 x y = .ok rows)
    (h3 : alookup configs (graphType ++ "_config.json") = none) :
    run_barbase configs graphType st files conds x y xlabel ylabel dumps proc
        engine algo suffix
      = .error (.configNotFound (graphType ++ "_config.json")) := by
  simp only [run_barbase, parse_jsons_barbase, read_config, h1, h2, h3]

/-- Witness for C8: chart type `pie` with a config directory that only
holds `bar_config.json` — the run fails with the missing `pie_config.json`
and yields no write call. -/
theorem run_missing_config_errors_witness :
    run_barbase [("bar_config.json", .obj [])] "pie" []
        [[("dataset", .vstr "road"), ("m_teps", .vfloat 1)]] []
        "dataset" "m_teps" "X" "Y" (fun _ => "") (fun _ => (0, "")) "g" "BFS" "0"
      = .error (.configNotFound ("pie" ++ "_config.json")) :=
  run_missing_config_errors [("bar_config.json", .obj [])] "pie" []
    [[("dataset", .vstr "road"), ("m_teps", .vfloat 1)]] []
    "dataset" "m_teps" "X" "Y" (fun _ => "") (fun _ => (0, "")) "g" "BFS" "0"
    (mkDF [[("dataset", .vstr "road"), ("m_teps", .vfloat 1)]])
    [[("dataset", some (.vstr "road")), ("m_teps", some (.vfloat 1))]]
    (by rfl) (by rfl) (by rfl)

/-! ## C9: the Renderer Bridge never checks the renderer's exit status -/

/-- C9 counterexample: with a renderer process that exits non-zero *and*
produces no output, the run still succeeds — `pipe_vl2vg` returns
`p.communicate(...)[0]` without consulting the return code, so the empty
stdout is handed to the output writer instead of any `RenderError` being
raised. -/
theorem run_failing_renderer_ok_cex :
    run_barbase [("bar_config.json", .obj [("encoding", .obj [("x", .obj []), ("y", .obj [])])])]
        "bar" [] [[("dataset", .vstr "road"), ("m_teps", .vfloat 1)]] []
        "dataset" "m_teps" "X" "Y" (fun _ => "") (fun _ => (1, "")) "g" "BFS" "0"
      = .ok { raw := "", engine := "g", algo := "BFS", suffix := "0" } := by rfl

/-- C9 as amended: the Renderer Bridge returns the process's stdout bytes
unconditionally — the run's outcome is independent of the renderer's exit
code (and an empty stdout is passed through as the written bytes); no error
is ever raised on the renderer's behalf. -/
theorem run_ignores_renderer_exit_code :
    ∀ (configs : List (String × Json)) (graphType : String)
      (st files : List Record) (conds : List (String × Value))
      (x y xlabel ylabel : String) (dumps : Json → String)
      (f : String → String) (c : ℤ) (engine algo suffix : String),
      run_barbase configs graphType st files conds x y xlabel ylabel dumps
          (fun s => (c, f s)) engine algo suffix
        = run_barbase configs graphType st files conds x y xlabel ylabel dumps
          (fun s => (0, f s)) engine algo suffix := by
  intro configs graphType st files conds x y xlabel ylabel dumps f c engine algo suffix
  simp only [run_barbase]
  cases parse_jsons_barbase configs graphType (readJson st files) conds x y xlabel ylabel with
  | error e => rfl
  | ok graph => rfl

/-! ## Decomposition helpers for the bar/scatter pipeline and merger -/

theorem setPaths_cons_ok {t t' : Json} {p : List String} {v : Json}
    {rest : List (List String × Json)}
    (h : setPaths t ((p, v) :: rest) = .ok t') :
    ∃ t1, setPath t p v = .ok t1 ∧ setPaths t1 rest = .ok t' := by
  simp only [setPaths] at h
  split at h
  next t1 h1 => exact ⟨t1, h1, h⟩
  next e h1 => exact absurd h (by simp)

theorem parse_barbase_ok {configs : List (String × Json)} {graphType : String}
    {records : List Record} {conds : List (String × Value)}
    {x y xlabel ylabel : String} {spec : Json}
    (h : parse_jsons_barbase configs graphType records conds x y xlabel ylabel = .ok spec) :
    ∃ df1 rows tmpl,
      applyConds (mkDF records) conds = .ok df1 ∧
      projectXY df1 x y = .ok rows ∧
      read_config configs graphType = .ok tmpl ∧
      mergeBar tmpl x y xlabel ylabel
        (inferType (dtypeOf df1 x)) (inferType (dtypeOf df1 y))
        (.obj [("values", .arr (rows.map rowJson))]) = .ok spec := by
  simp only [parse_jsons_barbase] at h
  split at h
  next e h1 => exact absurd h (by simp)
  next df1 h1 =>
    split at h
    next e h2 => exact absurd h (by simp)
    next rows h2 =>
      split at h
      next e h3 => exact absurd h (by simp)
      next tmpl h3 => exact ⟨df1, rows, tmpl, h1, h2, h3, h⟩

theorem projectXY_ok {df : DataFrame} {x y : String} {rows : List PRow}
    (h : projectXY df x y = .ok rows) :
    x ∈ df.cols ∧ y ∈ df.cols.erase x ∧
    rows = df.rows.map (fun r => [(x, alookup r x), (y, alookup r y)]) := by
  simp only [projectXY] at h
  by_cases hx : x ∈ df.cols
  · rw [if_pos hx] at h
    by_cases hy : y ∈ df.cols.erase x
    · rw [if_pos hy] at h
      cases h
      exact ⟨hx, hy, rfl⟩
    · rw [if_neg hy] at h
      exact absurd h (by simp)
  · rw [if_neg hx] at h
    exact absurd h (by simp)

/-- After the merge, the two `type` slots hold exactly the inferred types
(the later `x.field`/`x.axis` assignments touch disjoint paths). -/
theorem mergeBar_type_slots {tmpl : Json} {x y xlabel ylabel xt yt : String}
    {dv spec : Json}
    (h : mergeBar tmpl x y xlabel ylabel xt yt dv = .ok spec) :
    getPath spec ["encoding", "x", "type"] = some (.str xt) ∧
    getPath spec ["encoding", "y", "type"] = some (.str yt) := by
  obtain ⟨t1, e1, h⟩ := setPaths_cons_ok h
  obtain ⟨t2, e2, h⟩ := setPaths_cons_ok h
  obtain ⟨t3, e3, h⟩ := setPaths_cons_ok h
  obtain ⟨t4, e4, h⟩ := setPaths_cons_ok h
  obtain ⟨t5, e5, h⟩ := setPaths_cons_ok h
  obtain ⟨t6, e6, h⟩ := setPaths_cons_ok h
  obtain ⟨t7, e7, h⟩ := setPaths_cons_ok h
  simp only [setPaths] at h
  cases h
  constructor
  · rw [getPath_setPath_of_disj _ _ _ _ ["encoding", "x", "type"] e7 (by rfl) (by rfl),
      getPath_setPath_of_disj _ _ _ _ ["encoding", "x", "type"] e6 (by rfl) (by rfl),
      getPath_setPath_of_disj _ _ _ _ ["encoding", "x", "type"] e5 (by rfl) (by rfl)]
    exact getPath_setPath_self _ _ _ _ e4
  · rw [getPath_setPath_of_disj _ _ _ _ ["encoding", "y", "type"] e7 (by rfl) (by rfl),
      getPath_setPath_of_disj _ _ _ _ ["encoding", "y", "type"] e6 (by rfl) (by rfl)]
    exact getPath_setPath_self _ _ _ _ e5

/-- After the merge, the data slot holds exactly the projected values (the
six later assignments all sit under `encoding`). -/
theorem mergeBar_data_slot {tmpl : Json} {x y xlabel ylabel xt yt : String}
    {dv spec : Json}
    (h : mergeBar tmpl x y xlabel ylabel xt yt dv = .ok spec) :
    getPath spec ["data"] = some dv := by
  obtain ⟨t1, e1, h⟩ := setPaths_cons_ok h
  have hframe : getPath spec ["data"] = getPath t1 ["data"] := by
    refine setPaths_frame _ t1 spec ["data"] h ?_
    intro qv hqv
    simp only [List.mem_cons, List.mem_singleton] at hqv
    rcases hqv with rfl | rfl | rfl | rfl | rfl | rfl | hqv
    · exact ⟨rfl, rfl⟩
    · exact ⟨rfl, rfl⟩
    · exact ⟨rfl, rfl⟩
    · exact ⟨rfl, rfl⟩
    · exact ⟨rfl, rfl⟩
    · exact ⟨rfl, rfl⟩
    · simp at hqv
  rw [hframe]
  exact getPath_setPath_self _ _ _ _ e1

/-! ## C1: the bar/scatter projection keeps one output record per input record -/

/-- The bar chart template used by concrete runs. -/
def tmplBar : Json :=
  .obj [("mark", .str "bar"), ("encoding", .obj [("x", .obj []), ("y", .obj [])])]

/-- A config directory holding only `bar_config.json`. -/
def cfgBar : List (String × Json) := [("bar_config.json", tmplBar)]

/-- The Assembled Spec `parse_jsons_barbase` produces for the spec §8
end-to-end scenario (checked by `rfl` in the witness below). -/
def specScenario : Json :=
  .obj [("mark", .str "bar"),
        ("encoding", .obj [
          ("x", .obj [("type", .str "ordinal"), ("field", .str "dataset"),
                      ("axis", .obj [("title", .str "X")])]),
          ("y", .obj [("field", .str "m_teps"), ("axis", .obj [("title", .str "Y")]),
                      ("type", .str "quantitative")])]),
        ("data", .obj [("values", .arr [.obj [("dataset", .str "road"),
                                              ("m_teps", .num (62 / 5))]])])]

/-- C1 counterexample: two filtered records share the x value `road`, and
the assembled data values keep *both* (`set_index` does not deduplicate its
index), with both y values `1.0` and `2.0` present — the claim's "x values
are exactly the distinct set, no duplicates" and "y is the most-recent
record's y" both fail: the claimed output would be the single record
`{dataset: road, m_teps: 2.0}`. -/
theorem barbase_duplicate_x_retained_cex :
    (parse_jsons_barbase cfgBar "bar"
        [[("dataset", .vstr "road"), ("m_teps", .vfloat 1)],
         [("dataset", .vstr "road"), ("m_teps", .vfloat 2)]] []
        "dataset" "m_teps" "X" "Y").map
      (fun spec => (dataValuesOf spec).map (fun r => fieldStr r "dataset"))
      = .ok ["road", "road"] ∧
    ¬ (["road", "road"] : List String).Nodup ∧
    (parse_jsons_barbase cfgBar "bar"
        [[("dataset", .vstr "road"), ("m_teps", .vfloat 1)],
         [("dataset", .vstr "road"), ("m_teps", .vfloat 2)]] []
        "dataset" "m_teps" "X" "Y").map
      (fun spec => (dataValuesOf spec).map (fun r => getPath r ["m_teps"]))
      = .ok [some (.num 1), some (.num 2)] := by
  refine ⟨rfl, by decide, rfl⟩

/-- C1 as amended: the assembled spec's data values are exactly the
filtered rows projected to the `x` and `y` fields, one output record per
filtered input record, in table order — duplicate `x` values are retained
(no keyed reduction, hence no last-write-wins collapsing). -/
theorem barbase_data_values_eq_filtered_projection
    (configs : List (String × Json)) (graphType : String)
    (records : List Record) (conds : List (String × Value))
    (x y xlabel ylabel : String) (spec : Json) (df1 : DataFrame)
    (h : parse_jsons_barbase configs graphType records conds x y xlabel ylabel = .ok spec)
    (h1 : applyConds (mkDF records) conds = .ok df1) :
    getPath spec ["data"] = some (.obj [("values",
      .arr ((df1.rows.map (fun r => [(x, alookup r x), (y, alookup r y)])).map rowJson))]) := by
  obtain ⟨df1', rows, tmpl, h1', h2, h3, h4⟩ := parse_barbase_ok h
  have hdf : df1 = df1' := by
    have := h1.symm.trans h1'
    injection this
  subst hdf
  obtain ⟨hx, hy, hrows⟩ := projectXY_ok h2
  subst hrows
  exact mergeBar_data_slot h4

/-- Witness for C1 as amended, at the spec §8 scenario: the data slot holds
exactly the one filtered record projected to `dataset`/`m_teps`. -/
theorem barbase_data_values_witness :
    getPath specScenario ["data"]
      = some (.obj [("values", .arr [.obj [("dataset", .str "road"),
                                           ("m_teps", .num (62 / 5))]])]) :=
  barbase_data_values_eq_filtered_projection cfgBar "bar" [rRoad, rSoc] conds0
    "dataset" "m_teps" "X" "Y" specScenario dfScenario (by rfl) (by rfl)

/-! ## C4: which template keys the merger preserves -/

/-- A chart template with an extra top-level key (`width`) and a nested key
under the x axis slot (`encoding.x.axis.grid`). -/
def tmplC4 : Json :=
  .obj [("mark", .str "bar"), ("width", .num 300),
        ("encoding", .obj [("x", .obj [("axis", .obj [("grid", .bool true)])]),
                           ("y", .obj [])])]

/-- The merge of `tmplC4` (checked by `rfl` below). -/
def specC4 : Json :=
  .obj [("mark", .str "bar"), ("width", .num 300),
        ("encoding", .obj [
          ("x", .obj [("axis", .obj [("title", .str "X")]), ("type", .str "ordinal"),
                      ("field", .str "d")]),
          ("y", .obj [("field", .str "m"), ("axis", .obj [("title", .str "Y")]),
                      ("type", .str "quantitative")])]),
        ("data", .obj [("values", .arr [])])]

/-- C4 counterexample: the nested template key `encoding.x.axis.grid` is
present in the original Chart Template but absent from the Assembled Spec —
`bar["encoding"]["x"]["axis"] = {"title": …}` replaces the axis object
wholesale, so the merge is not purely additive on nested keys. -/
theorem merge_drops_nested_axis_key_cex :
    getPath tmplC4 ["encoding", "x", "axis", "grid"] = some (.bool true) ∧
    (mergeBar tmplC4 "d" "m" "X" "Y" "ordinal" "quantitative"
        (.obj [("values", .arr [])])).map
      (fun spec => getPath spec ["encoding", "x", "axis", "grid"]) = .ok none :=
  ⟨rfl, rfl⟩

/-- C4 as amended: every key path of the Chart Template that does not
extend one of the seven written slots (`data`, `encoding.{x,y}.field`,
`encoding.{x,y}.axis`, `encoding.{x,y}.type`) is still present in the
Assembled Spec, and any path disjoint from all seven keeps its exact value;
keys nested *under* the replaced slots (for example inside an axis object)
may be dropped. -/
theorem merge_preserves_non_slot_keys
    (tmpl : Json) (x y xlabel ylabel xt yt : String) (dv spec : Json)
    (p : List String)
    (h : mergeBar tmpl x y xlabel ylabel xt yt dv = .ok spec)
    (hp : ∀ q ∈ slotPaths, isInit q p = false) :
    ((getPath tmpl p).isSome → (getPath spec p).isSome) ∧
    ((∀ q ∈ slotPaths, isInit p q = false) → getPath spec p = getPath tmpl p) := by
  have hmem : ∀ qv ∈ barAssignments x y xlabel ylabel xt yt dv, qv.1 ∈ slotPaths := by
    intro qv hqv
    simp only [barAssignments, List.mem_cons, List.not_mem_nil, or_false] at hqv
    rcases hqv with rfl | rfl | rfl | rfl | rfl | rfl | rfl <;> simp [slotPaths]
  constructor
  · intro hsome
    exact setPaths_isSome _ tmpl spec p h (fun qv hqv => hp qv.1 (hmem qv hqv)) hsome
  · intro hdisj
    exact setPaths_frame _ tmpl spec p h
      (fun qv hqv => ⟨hp qv.1 (hmem qv hqv), hdisj qv.1 (hmem qv hqv)⟩)

/-- Witness for C4 as amended: the extra top-level key `width` survives the
merge with its exact value. -/
theorem merge_preserves_non_slot_keys_witness :
    ((getPath tmplC4 ["width"]).isSome → (getPath specC4 ["width"]).isSome) ∧
    ((∀ q ∈ slotPaths, isInit ["width"] q = false) →
      getPath specC4 ["width"] = getPath tmplC4 ["width"]) :=
  merge_preserves_non_slot_keys tmplC4 "d" "m" "X" "Y" "ordinal" "quantitative"
    (.obj [("values", .arr [])]) specC4 ["width"] (by rfl) (by decide)

/-! ## C5: how the Type Inferencer classifies axis fields -/

theorem alookup_map_pair {β : Type} (g : String → β) :
    ∀ (cs : List String) (c : String), c ∈ cs →
      alookup (cs.map (fun k => (k, g k))) c = some (g c)
  | [], c, h => by simp at h
  | k :: rest, c, h => by
    by_cases hk : k = c
    · subst hk
      simp [alookup]
    · simp only [List.map_cons, alookup, if_neg hk]
      apply alookup_map_pair
      rcases List.mem_cons.mp h with h | h
      · exact absurd h.symm hk
      · exact h

theorem dtypeOf_mkDF {records : List Record} {c : String} (hc : c ∈ colsOf records) :
    dtypeOf (mkDF records) c = colDtype (records.map (fun r => alookup r c)) := by
  unfold dtypeOf mkDF
  rw [alookup_map_pair _ _ _ hc]
  rfl

/-- A column whose present values are all floats (and which exists, i.e.
some record carries it) gets dtype `float64` at construction. -/
theorem colDtype_float_of_all {records : List Record} {c : String}
    (hc : c ∈ colsOf records)
    (hall : ∀ r ∈ records, (alookup r c).all Value.isFloat = true) :
    colDtype (records.map (fun r => alookup r c)) = .float64 := by
  have hpres : ∀ w ∈ (records.map (fun r => alookup r c)).filterMap id,
      w.isFloat = true := by
    intro w hw
    rw [List.mem_filterMap] at hw
    obtain ⟨o, ho, hid⟩ := hw
    obtain ⟨r, hr, hrc⟩ := List.mem_map.mp ho
    have := hall r hr
    rw [hrc] at this
    cases hid
    simpa [Option.all] using this
  have hnum : ((records.map (fun r => alookup r c)).filterMap id).all Value.isNum = true := by
    rw [List.all_eq_true]
    intro w hw
    have := hpres w hw
    cases w <;> simp_all [Value.isFloat, Value.isNum]
  have hex : ((records.map (fun r => alookup r c)).filterMap id).any Value.isFloat = true := by
    rw [List.any_eq_true]
    obtain ⟨r, hr, hkey⟩ := mem_colsOf.mp hc
    obtain ⟨w, hw⟩ := Option.isSome_iff_exists.mp (alookup_isSome_of_mem_keys hkey)
    refine ⟨w, ?_, ?_⟩
    · rw [List.mem_filterMap]
      exact ⟨some w, List.mem_map.mpr ⟨r, hr, hw⟩, rfl⟩
    · have := hall r hr
      rw [hw] at this
      simpa [Option.all] using this
  unfold colDtype
  rw [if_pos hnum, if_pos (by rw [Bool.or_eq_true]; right; exact hex)]

/-- A column whose present values are all strings (and which exists) gets
dtype `object` at construction. -/
theorem colDtype_object_of_str {records : List Record} {c : String}
    (hc : c ∈ colsOf records)
    (hall : ∀ r ∈ records, (alookup r c).all Value.isStr = true) :
    colDtype (records.map (fun r => alookup r c)) = .object := by
  obtain ⟨r, hr, hkey⟩ := mem_colsOf.mp hc
  obtain ⟨w, hw⟩ := Option.isSome_iff_exists.mp (alookup_isSome_of_mem_keys hkey)
  have hws : w.isStr = true := by
    have := hall r hr
    rw [hw] at this
    simpa [Option.all] using this
  have hwmem : w ∈ (records.map (fun r => alookup r c)).filterMap id := by
    rw [List.mem_filterMap]
    exact ⟨some w, List.mem_map.mpr ⟨r, hr, hw⟩, rfl⟩
  have hnum : ((records.map (fun r => alookup r c)).filterMap id).all Value.isNum = false := by
    rw [List.all_eq_false]
    refine ⟨w, hwmem, ?_⟩
    cases w <;> simp_all [Value.isStr, Value.isNum]
  have hbool : ((records.map (fun r => alookup r c)).filterMap id).all Value.isBool = false := by
    rw [List.all_eq_false]
    refine ⟨w, hwmem, ?_⟩
    cases w <;> simp_all [Value.isStr, Value.isBool]
  unfold colDtype
  rw [if_neg (by rw [hnum]; exact Bool.false_ne_true), hbool, Bool.and_false,
    if_neg Bool.false_ne_true]

/-- C5 as amended: the Type Inferencer classifies by the column's declared
dtype, computed from the *full loaded table* before filtering: an axis
field whose values are all floats across the loaded records is typed
`quantitative`, and one whose values are all strings is typed `ordinal` —
but the values of the filtered/projected subset alone do not decide the
type (see the counterexample). -/
theorem axis_type_by_declared_dtype
    (configs : List (String × Json)) (graphType : String)
    (records : List Record) (conds : List (String × Value))
    (x y xlabel ylabel : String) (spec : Json)
    (h : parse_jsons_barbase configs graphType records conds x y xlabel ylabel = .ok spec) :
    ((∀ r ∈ records, (alookup r x).all Value.isFloat = true) →
        getPath spec ["encoding", "x", "type"] = some (.str "quantitative")) ∧
    ((∀ r ∈ records, (alookup r x).all Value.isStr = true) →
        getPath spec ["encoding", "x", "type"] = some (.str "ordinal")) ∧
    ((∀ r ∈ records, (alookup r y).all Value.isFloat = true) →
        getPath spec ["encoding", "y", "type"] = some (.str "quantitative")) ∧
    ((∀ r ∈ records, (alookup r y).all Value.isStr = true) →
        getPath spec ["encoding", "y", "type"] = some (.str "ordinal")) := by
  obtain ⟨df1, rows, tmpl, h1, h2, h3, h4⟩ := parse_barbase_ok h
  obtain ⟨hx, hy, -⟩ := projectXY_ok h2
  obtain ⟨-, hcols, hdts⟩ := applyConds_ok conds _ _ h1
  have hxm : x ∈ colsOf records := by
    rw [hcols] at hx
    simpa [mkDF] using hx
  have hym : y ∈ colsOf records := by
    have := List.mem_of_mem_erase hy
    rw [hcols] at this
    simpa [mkDF] using this
  have hdx : dtypeOf df1 x = colDtype (records.map (fun r => alookup r x)) := by
    unfold dtypeOf
    rw [hdts]
    exact dtypeOf_mkDF hxm
  have hdy : dtypeOf df1 y = colDtype (records.map (fun r => alookup r y)) := by
    unfold dtypeOf
    rw [hdts]
    exact dtypeOf_mkDF hym
  obtain ⟨hX, hY⟩ := mergeBar_type_slots h4
  refine ⟨?_, ?_, ?_, ?_⟩
  · intro hall
    rw [hX, hdx, colDtype_float_of_all hxm hall]
    rfl
  · intro hall
    rw [hX, hdx, colDtype_object_of_str hxm hall]
    rfl
  · intro hall
    rw [hY, hdy, colDtype_float_of_all hym hall]
    rfl
  · intro hall
    rw [hY, hdy, colDtype_object_of_str hym hall]
    rfl

/-- A record with a string `m` value, filtered out below. -/
def rMixA : Record := [("alg", .vstr "A"), ("d", .vstr "x1"), ("m", .vstr "oops")]

/-- A record with a float `m` value, the only one surviving the filter. -/
def rMixB : Record := [("alg", .vstr "B"), ("d", .vstr "x2"), ("m", .vfloat (3 / 2))]

/-- C5 counterexample: after filtering to `alg = B`, the projected table's
`m` values are all floating-point (`[1.5]`), yet the y axis is typed
`ordinal`, not `quantitative` — the dtype is the `object` of the *full*
mixed column `["oops", 1.5]`, fixed at construction, not a property of the
projected records the claim quantifies over. -/
theorem axis_type_object_dtype_cex :
    (parse_jsons_barbase cfgBar "bar" [rMixA, rMixB] [("alg", .vstr "B")]
        "d" "m" "X" "Y").map
      (fun spec => getPath spec ["encoding", "y", "type"])
      = .ok (some (.str "ordinal")) ∧
    (parse_jsons_barbase cfgBar "bar" [rMixA, rMixB] [("alg", .vstr "B")]
        "d" "m" "X" "Y").map
      (fun spec => (dataValuesOf spec).map (fun r => getPath r ["m"]))
      = .ok [some (.num (3 / 2))] :=
  ⟨rfl, rfl⟩

/-- Witness for C5 as amended, at the spec §8 scenario: all-string
`dataset` column is typed `ordinal`, all-float `m_teps` column is typed
`quantitative`. -/
theorem axis_type_by_declared_dtype_witness :
    getPath specScenario ["encoding", "x", "type"] = some (.str "ordinal") ∧
    getPath specScenario ["encoding", "y", "type"] = some (.str "quantitative") :=
  ⟨(axis_type_by_declared_dtype cfgBar "bar" [rRoad, rSoc] conds0
      "dataset" "m_teps" "X" "Y" specScenario (by rfl)).2.1 (by decide),
   (axis_type_by_declared_dtype cfgBar "bar" [rRoad, rSoc] conds0
      "dataset" "m_teps" "X" "Y" specScenario (by rfl)).2.2.1 (by decide)⟩

/-! ## C6: the heatmap projection's fixed fields and derived rounding -/

/-- rint of an integer-valued float is itself. -/
theorem rintQ_intCast (n : ℤ) : rintQ (n : ℚ) = (n : ℚ) := by
  unfold rintQ rintZ
  have hf : ((n : ℚ)).floor = n := by
    rw [ratFloor_eq]
    exact Int.floor_intCast n
  rw [hf, sub_self, if_pos (by norm_num)]

/-- Every row produced by the heatmap projection comes from one filtered
record and carries exactly the four fixed fields plus the appended rounded
column. -/
theorem heatRows_ok_shape : ∀ (rs : List Record) (hs : List PRow),
    heatRows rs = .ok hs →
    ∀ hrow ∈ hs, ∃ r ∈ rs, ∃ rv,
      rintCell (alookup r "m_teps") = .ok rv ∧
      hrow = [("dataset", alookup r "dataset"), ("m_teps", alookup r "m_teps"),
              ("alpha", alookup r "alpha"), ("beta", alookup r "beta"),
              ("m_teps_rounded", rv)]
  | [], hs, h => by
    simp only [heatRows] at h
    cases h
    intro hrow hmem
    simp at hmem
  | r :: rest, hs, h => by
    simp only [heatRows] at h
    split at h
    next e he => exact absurd h (by simp)
    next rv hrv =>
      split at h
      next e he => exact absurd h (by simp)
      next tl htl =>
        cases h
        intro hrow hmem
        rcases List.mem_cons.mp hmem with rfl | hmem
        · exact ⟨r, by simp, rv, hrv, rfl⟩
        · obtain ⟨r', hr', rv', hrv', hshape⟩ := heatRows_ok_shape rest tl htl hrow hmem
          exact ⟨r', by simp [hr'], rv', hrv', hshape⟩

/-- C6: the heatmap Axis Projector ignores the Axis Mapping entirely (the
parse result is the same for any `axes_vars`), and every record in the
assembled data slot has exactly the fields `dataset`, `m_teps`, `alpha`,
`beta` plus the derived `m_teps_rounded`, whose value is `numpy.rint` of
that record's `m_teps` whenever `m_teps` is a number. -/
theorem heatmap_fields_and_rounding
    (configs : List (String × Json)) (records : List Record)
    (conds : List (String × Value)) (axes_vars axes_vars' : List (String × String))
    (xlabel ylabel : String) (spec : Json) (vs : List Json)
    (h : parse_jsons_heatmap configs records conds axes_vars xlabel ylabel = .ok spec)
    (hv : getPath spec ["data"] = some (.obj [("values", .arr vs)])) :
    parse_jsons_heatmap configs records conds axes_vars' xlabel ylabel = .ok spec ∧
    ∀ v ∈ vs, ∃ d m a b rv,
      v = .obj [("dataset", d), ("m_teps", m), ("alpha", a), ("beta", b),
                ("m_teps_rounded", rv)] ∧
      ∀ q : ℚ, m = .num q → rv = .num (rintQ q) := by
  refine ⟨h, ?_⟩
  simp only [parse_jsons_heatmap] at h
  split at h
  next e h1 => exact absurd h (by simp)
  next df1 h1 =>
    split at h
    next e h2 => exact absurd h (by simp)
    next rows h2 =>
      split at h
      next e h3 => exact absurd h (by simp)
      next tmpl h3 =>
        have hdata := getPath_setPath_self _ _ _ _ h
        rw [hv] at hdata
        have hvs : vs = rows.map rowJson := by
          simp only [Option.some.injEq, Json.obj.injEq, List.cons.injEq, Prod.mk.injEq,
            Json.arr.injEq, true_and, and_true] at hdata
          exact hdata
        subst hvs
        have hrows : heatRows df1.rows = .ok rows := by
          simp only [heatmapProject] at h2
          split at h2
          · exact h2
          · exact absurd h2 (by simp)
        intro v hvmem
        obtain ⟨hrow, hhmem, hveq⟩ := List.mem_map.mp hvmem
        obtain ⟨r, hr, rv, hrv, hshape⟩ := heatRows_ok_shape df1.rows rows hrows hrow hhmem
        subst hshape
        refine ⟨cellJson (alookup r "dataset"), cellJson (alookup r "m_teps"),
          cellJson (alookup r "alpha"), cellJson (alookup r "beta"), cellJson rv,
          hveq.symm, ?_⟩
        intro q hq
        cases hm : alookup r "m_teps" with
        | none =>
          rw [hm] at hq
          simp [cellJson] at hq
        | some w =>
          rw [hm] at hq hrv
          cases w with
          | vstr s => simp [rintCell] at hrv
          | vfloat q0 =>
            simp only [rintCell] at hrv
            injection hrv with hrv
            subst hrv
            simp only [cellJson, valueJson] at hq
            injection hq with hq
            subst hq
            rfl
          | vint n =>
            simp only [rintCell] at hrv
            injection hrv with hrv
            subst hrv
            simp only [cellJson, valueJson] at hq
            injection hq with hq
            subst hq
            simp [cellJson, valueJson, rintQ_intCast]
          | vbool b =>
            simp only [cellJson, valueJson] at hq
            exact absurd hq (by simp)

/-- A heatmap input record with `m_teps = 12.6`. -/
def rHeat : Record :=
  [("dataset", .vstr "road"), ("m_teps", .vfloat (63 / 5)),
   ("alpha", .vfloat 1), ("beta", .vfloat 2)]

/-- The Assembled Spec the heatmap pipeline produces for `[rHeat]` (checked
by `rfl` in the witness). -/
def specHeat : Json :=
  .obj [("data", .obj [("values", .arr [.obj
    [("dataset", .str "road"), ("m_teps", .num (63 / 5)),
     ("alpha", .num 1), ("beta", .num 2),
     ("m_teps_rounded", .num (rintQ (63 / 5)))]])])]

/-- Witness for C6: with one record of `m_teps = 12.6`, the heatmap run is
unchanged when the Axis Mapping is replaced by a different one, the single
data record carries exactly the five fields, and the derived field rounds
`12.6` to `13` (the spec §8 heatmap scenario). -/
theorem heatmap_fields_and_rounding_witness :
    parse_jsons_heatmap [("heatmap_config.json", .obj [])] [rHeat] [] []
        "X" "Y" = .ok specHeat ∧
    (∃ d m a b rv,
      Json.obj [("dataset", .str "road"), ("m_teps", .num (63 / 5)),
                ("alpha", .num 1), ("beta", .num 2),
                ("m_teps_rounded", .num (rintQ (63 / 5)))]
        = .obj [("dataset", d), ("m_teps", m), ("alpha", a), ("beta", b),
                ("m_teps_rounded", rv)] ∧
      ∀ q : ℚ, m = .num q → rv = .num (rintQ q)) ∧
    rintQ (63 / 5) = 13 := by
  have happ := heatmap_fields_and_rounding [("heatmap_config.json", .obj [])] [rHeat] []
    [("x", "dataset"), ("y", "m_teps")] [] "X" "Y" specHeat
    [.obj [("dataset", .str "road"), ("m_teps", .num (63 / 5)),
           ("alpha", .num 1), ("beta", .num 2),
           ("m_teps_rounded", .num (rintQ (63 / 5)))]]
    (by rfl) (by rfl)
  refine ⟨happ.1, happ.2 _ (by simp), ?_⟩
  have hf : (⌊(63 / 5 : ℚ)⌋ : ℤ) = 12 := by norm_num
  unfold rintQ rintZ
  rw [ratFloor_eq, hf]
  norm_num
